import Mathlib

/-!
Shallow embedding of the Patient Management System service (`src/main.py`).

Modelling conventions:
* Python numeric values (`int`, `float`) are modelled as exact numbers (`ℤ`, `ℚ`).
  Every numeric literal in the source (70.2, 1.75, 18.5, 24.9, 29.9) denotes a
  decimal that the model keeps exact; Python `round(x, 2)` is modelled as
  rounding to the nearest multiple of 1/100 (ties away from zero for positive
  inputs), one of the tie-breaking choices the spec permits.
* Python `str.capitalize()` is modelled on the ASCII range via `Char.toUpper` /
  `Char.toLower` (first character uppercased, the rest lowercased), which is
  exactly Python's behaviour on the ASCII strings the gender validator compares.
* The persisted JSON object (`patients.json`) is a mapping from patient id to a
  stored record; it is modelled as an insertion-ordered association list, which
  is how Python dicts behave (lookup by key, in-place overwrite keeps position,
  fresh keys are appended, deletion removes the entry).
* Pydantic validation errors, `HTTPException(400/404)` and the sort-parameter
  rejections are all modelled by the typed error kinds of §7 of the spec.
  Pydantic aggregates all invalid fields into one `ValidationError`; the model
  reports the first offending field in declaration order, which is faithful for
  every single-fault scenario considered here.
-/

namespace PMS

/-- Error kinds of the service (spec §7).  `invalidField f` models a pydantic
`ValidationError` naming field `f`; `duplicateID` models the HTTP 400 of
`/create` on an existing id; `recordNotFound` the HTTP 404 of `/edit` and
`/delete`; `invalidSortField` / `invalidSortOrder` the HTTP 400s of `/sort`. -/
inductive Err where
  | invalidField (field : String)
  | duplicateID
  | recordNotFound
  | invalidSortField
  | invalidSortOrder
deriving DecidableEq

/-- Python `round(q, 2)` on the exact value: round `q * 100` to the nearest
integer (ties for positive arguments away from zero) and divide by 100. -/
def round2 (q : ℚ) : ℚ := (round (q * 100) : ℤ) / 100

/-- The `bmi` computed field of `Patient` (src/main.py line 33):
`round(weight / height ** 2, 2)`. -/
def bmiOf (height weight : ℚ) : ℚ := round2 (weight / height ^ 2)

/-- The `verdict` computed field of `Patient` (src/main.py lines 38-46):
an if/elif chain on the computed bmi, first match wins. -/
def verdictOf (bmi : ℚ) : String :=
  if bmi < 18.5 then "Underweight"
  else if 18.5 ≤ bmi ∧ bmi < 24.9 then "Normal weight"
  else if 25 ≤ bmi ∧ bmi < 29.9 then "Overweight"
  else "Obesity"

/-- Python `str.capitalize()` on the list of characters: first character
uppercased, all remaining characters lowercased (ASCII case mapping). -/
def pyCapitalizeData : List Char → List Char
  | [] => []
  | c :: cs => c.toUpper :: cs.map Char.toLower

/-- The `normalize_gender` before-validator of `Patient` and `PatientUpdate`
(src/main.py lines 24-28 and 58-62): `v.capitalize()` on string input. -/
def normalize_gender (v : String) : String := ⟨pyCapitalizeData v.data⟩

/-- The admissible gender values, from the `Literal` type of the `gender`
field (src/main.py line 19). -/
def genders : List String := ["Male", "Female", "Others"]

/-- A validated patient record, as produced by the pydantic `Patient` model
(src/main.py lines 14-46): all constraints hold and `gender` is canonical. -/
structure Patient where
  id : String
  name : String
  city : String
  age : ℤ
  gender : String
  height : ℚ
  weight : ℚ
deriving DecidableEq

/-- The `bmi` computed field (src/main.py lines 30-34). -/
def Patient.bmi (p : Patient) : ℚ := bmiOf p.height p.weight

/-- The `verdict` computed field (src/main.py lines 36-46). -/
def Patient.verdict (p : Patient) : String := verdictOf p.bmi

/-- Raw field values submitted for a full `Patient`, before validation.
Type-level coercions (a non-string gender, a string age, ...) are outside the
model: every field already has its Python type. -/
structure RawPatient where
  id : String
  name : String
  city : String
  age : ℤ
  gender : String
  height : ℚ
  weight : ℚ
deriving DecidableEq

/-- Pydantic validation of the `Patient` model (src/main.py lines 14-28).
Fields are checked in declaration order: `id`, `name` and `city` are plain
`str` fields with no constraint (the source attaches no `min_length`, so the
empty string passes), `age` must satisfy `gt=0, lt=110`, `gender` is
capitalized by the before-validator and must be one of the `Literal` values,
`height` and `weight` must satisfy `gt=0`. -/
def validatePatient (r : RawPatient) : Except Err Patient :=
  if ¬ (0 < r.age ∧ r.age < 110) then .error (.invalidField ("age"))
  else if ¬ (normalize_gender r.gender ∈ genders) then .error (.invalidField ("gender"))
  else if ¬ (0 < r.height) then .error (.invalidField ("height"))
  else if ¬ (0 < r.weight) then .error (.invalidField ("weight"))
  else .ok ⟨r.id, r.name, r.city, r.age, normalize_gender r.gender, r.height, r.weight⟩

/-- Raw field values submitted for a `PatientUpdate`: each field is optional;
`none` models a field absent from the request body. -/
structure RawUpdate where
  name : Option String
  city : Option String
  age : Option ℤ
  gender : Option String
  height : Option ℚ
  weight : Option ℚ
deriving DecidableEq

/-- A validated `PatientUpdate` (src/main.py lines 49-62): present fields
satisfy their constraints and a present gender is canonical. -/
structure PatientUpdate where
  name : Option String
  city : Option String
  age : Option ℤ
  gender : Option String
  height : Option ℚ
  weight : Option ℚ
deriving DecidableEq

/-- Pydantic validation of the `PatientUpdate` model (src/main.py lines
49-62).  Every field is optional; a present `age` must satisfy `gt=0` — the
source declares `Field(default=None, gt=0)` with no `lt` bound, unlike the
full model's `lt=110` — a present `gender` is capitalized and checked against
the `Literal` values, and a present `height` or `weight` must be positive. -/
def validatePatientUpdate (r : RawUpdate) : Except Err PatientUpdate :=
  if ¬ (∀ a ∈ r.age, 0 < a) then .error (.invalidField ("age"))
  else if ¬ (∀ g ∈ r.gender, normalize_gender g ∈ genders) then .error (.invalidField ("gender"))
  else if ¬ (∀ h ∈ r.height, 0 < h) then .error (.invalidField ("height"))
  else if ¬ (∀ w ∈ r.weight, 0 < w) then .error (.invalidField ("weight"))
  else .ok ⟨r.name, r.city, (r.age), r.gender.map normalize_gender, r.height, r.weight⟩

/-- The persisted shape of one patient: `patient.model_dump(exclude=["id"])`
(src/main.py lines 127, 146), i.e. the stored fields plus the two computed
fields `bmi` and `verdict`. -/
structure StoredRecord where
  name : String
  city : String
  age : ℤ
  gender : String
  height : ℚ
  weight : ℚ
  bmi : ℚ
  verdict : String
deriving DecidableEq

/-- `model_dump(exclude=["id"])` of a validated `Patient`. -/
def Patient.dump (p : Patient) : StoredRecord :=
  ⟨p.name, p.city, p.age, p.gender, p.height, p.weight, p.bmi, p.verdict⟩

/-- The persisted collection (`patients.json`): a Python dict from patient id
to stored record, modelled as an insertion-ordered association list. -/
abbrev Collection : Type := List (String × StoredRecord)

/-- Dict lookup: `data[pid]` / `pid in data`. -/
def dictGet (k : String) : Collection → Option StoredRecord
  | [] => none
  | (k₁, v₁) :: rest => if k₁ = k then some v₁ else dictGet k rest

/-- Dict assignment `data[k] = v`: overwrite in place when the key exists
(keeping its position), append otherwise — Python dict semantics. -/
def dictSet (k : String) (v : StoredRecord) : Collection → Collection
  | [] => [(k, v)]
  | (k₁, v₁) :: rest => if k₁ = k then (k, v) :: rest else (k₁, v₁) :: dictSet k v rest

/-- Dict deletion `del data[k]`: drop the entry for `k` (dict keys are
unique, so filtering is exact). -/
def dictErase (k : String) : Collection → Collection
  | [] => []
  | (k₁, v₁) :: rest => if k₁ = k then dictErase k rest else (k₁, v₁) :: dictErase k rest

/-- The `POST /create` handler (src/main.py lines 121-129), as a function
from the persisted store to (result, persisted store after the request).  The
body has already been validated into a `Patient`.  A duplicate id raises
HTTP 400 before any save, leaving the store untouched. -/
def create_patient (store : Collection) (p : Patient) : Except Err Unit × Collection :=
  if (dictGet p.id store).isSome then (.error .duplicateID, store)
  else (.ok (), dictSet p.id p.dump store)

/-- The dict merge of `update_patient` (src/main.py lines 137-144): start from
the stored record, overwrite each field the update supplied, reattach the id
from the path.  The result is the raw input re-validated as a full `Patient`. -/
def mergeRaw (e : StoredRecord) (u : PatientUpdate) (pid : String) : RawPatient :=
  { id := pid
    name := u.name.getD e.name
    city := u.city.getD e.city
    age := u.age.getD e.age
    gender := u.gender.getD e.gender
    height := u.height.getD e.height
    weight := u.weight.getD e.weight }

/-- The outcome of the lookup-merge-revalidate phase of `/edit` (src/main.py
lines 133-145): HTTP 404 when the id is unknown, otherwise the merged record
re-validated as a full `Patient`. -/
def update_result (store : Collection) (pid : String) (u : PatientUpdate) :
    Except Err Patient :=
  match dictGet pid store with
  | none => .error .recordNotFound
  | some e => validatePatient (mergeRaw e u pid)

/-- The `PUT /edit/{patient_id}` handler (src/main.py lines 131-150).  An
unknown id raises HTTP 404; otherwise the stored record is merged with the
supplied fields, re-validated as a full `Patient` (recomputing bmi and
verdict), and stored back under the same id.  A lookup or validation failure
propagates before any save, leaving the store untouched. -/
def update_patient (store : Collection) (pid : String) (u : PatientUpdate) :
    Except Err Unit × Collection :=
  match update_result store pid u with
  | .error err => (.error err, store)
  | .ok p => (.ok (), dictSet pid p.dump store)

theorem update_result_none {store : Collection} {pid : String} (u : PatientUpdate)
    (h : dictGet pid store = none) : update_result store pid u = .error .recordNotFound := by
  unfold update_result
  rw [h]

theorem update_result_some {store : Collection} {pid : String} {e : StoredRecord}
    (u : PatientUpdate) (h : dictGet pid store = some e) :
    update_result store pid u = validatePatient (mergeRaw e u pid) := by
  unfold update_result
  rw [h]

/-- The `DELETE /delete/{patient_id}` handler (src/main.py lines 152-161). -/
def delete_patient (store : Collection) (pid : String) : Except Err Unit × Collection :=
  if (dictGet pid store).isNone then (.error .recordNotFound, store)
  else (.ok (), dictErase pid store)

/-- The sort key of a dumped record: `x.get(sort_by, 0)` (src/main.py line
116), read on the three accepted keys (the default 0 is unreachable because
`sort_by` was validated and every dump carries all three keys). -/
def sortKey (sort_by : String) (r : StoredRecord) : ℚ :=
  if sort_by = "height" then r.height
  else if sort_by = "weight" then r.weight
  else r.bmi

/-- The comparison used by `sorted(..., reverse=reverse_sort)`: ascending on
the key by default, descending when `order == "desc"`.  CPython's `sorted` is
a stable sort and `reverse=True` flips only the comparison (records with equal
keys keep their original relative order in both directions); a stable sort by
a total preorder has a unique result, so `List.mergeSort` with this `le` is
extensionally the same function. -/
def sortLe (sort_by order : String) (a b : StoredRecord) : Bool :=
  if order = "desc" then decide (sortKey sort_by b ≤ sortKey sort_by a)
  else decide (sortKey sort_by a ≤ sortKey sort_by b)

/-- Materialization of one stored entry for `/sort` (src/main.py lines
110-112, 115): `pdata["id"] = pid; Patient(**pdata)` re-validates the stored
fields (pydantic ignores the extra `bmi`/`verdict` keys) and
`model_dump(exclude=["id"])` re-derives both computed fields. -/
def materialize (pid : String) (r : StoredRecord) : Except Err StoredRecord :=
  (validatePatient ⟨pid, r.name, r.city, r.age, r.gender, r.height, r.weight⟩).map Patient.dump

/-- The materialization loop of `/sort` (src/main.py lines 109-112): build the
list of dumped `Patient` objects in collection-iteration order, propagating
the first validation error. -/
def materializeAll : Collection → Except Err (List StoredRecord)
  | [] => .ok []
  | (pid, r) :: rest =>
    match materialize pid r with
    | .error err => .error err
    | .ok p =>
      match materializeAll rest with
      | .error err => .error err
      | .ok ps => .ok (p :: ps)

/-- The `GET /sort` handler (src/main.py lines 95-119): reject an unknown
`sort_by` (HTTP 400 "Invalid field ...") before checking `order` (HTTP 400
"Invalid order ..."), then materialize every record and stably sort the dumps
by the requested key. -/
def sort_patients (sort_by order : String) (store : Collection) :
    Except Err (List StoredRecord) :=
  if ¬ (sort_by ∈ ["height", "weight", "bmi"]) then .error .invalidSortField
  else if ¬ (order ∈ ["asc", "desc"]) then .error .invalidSortOrder
  else
    match materializeAll store with
    | .error err => .error err
    | .ok pats => .ok (pats.mergeSort (sortLe sort_by order))

deriving instance DecidableEq for Except

/-! Helper lemmas -/

theorem toNat_ofNat_small : ∀ m : Nat, m < 128 → (Char.ofNat m).toNat = m := by decide

theorem toLower_toLower (c : Char) : Char.toLower (Char.toLower c) = Char.toLower c := by
  unfold Char.toLower
  by_cases h : c.toNat ≥ 65 ∧ c.toNat ≤ 90
  · rw [if_pos h, toNat_ofNat_small (c.toNat + 32) (by omega), if_neg (by omega)]
  · rw [if_neg h, if_neg h]

theorem toUpper_toUpper (c : Char) : Char.toUpper (Char.toUpper c) = Char.toUpper c := by
  unfold Char.toUpper
  by_cases h : c.toNat ≥ 97 ∧ c.toNat ≤ 122
  · rw [if_pos h, toNat_ofNat_small (c.toNat - 32) (by omega), if_neg (by omega)]
  · rw [if_neg h, if_neg h]

theorem pyCapitalizeData_idem (l : List Char) :
    pyCapitalizeData (pyCapitalizeData l) = pyCapitalizeData l := by
  cases l with
  | nil => rfl
  | cons c cs =>
    simp only [pyCapitalizeData]
    rw [toUpper_toUpper, List.map_map]
    exact congrArg _ (List.map_congr_left fun c₁ _ => toLower_toLower c₁)

theorem normalize_gender_idem (s : String) :
    normalize_gender (normalize_gender s) = normalize_gender s := by
  show (⟨pyCapitalizeData (pyCapitalizeData s.data)⟩ : String) = ⟨pyCapitalizeData s.data⟩
  exact congrArg String.mk (pyCapitalizeData_idem s.data)

theorem round2_eq_div (q : ℚ) (n : ℤ) (h₁ : (n : ℚ) - 1/2 ≤ q * 100)
    (h₂ : q * 100 < (n : ℚ) + 1/2) : round2 q = (n : ℚ) / 100 := by
  unfold round2
  congr 1
  norm_cast
  rw [round_eq, Int.floor_eq_iff]
  exact ⟨by linarith, by linarith⟩

theorem verdictOf_underweight {b : ℚ} (h : b < 18.5) : verdictOf b = "Underweight" := by
  unfold verdictOf
  rw [if_pos h]

theorem verdictOf_normal {b : ℚ} (h₁ : 18.5 ≤ b) (h₂ : b < 24.9) :
    verdictOf b = "Normal weight" := by
  unfold verdictOf
  rw [if_neg (by linarith), if_pos ⟨h₁, h₂⟩]

theorem verdictOf_overweight {b : ℚ} (h₁ : 25 ≤ b) (h₂ : b < 29.9) :
    verdictOf b = "Overweight" := by
  unfold verdictOf
  rw [if_neg (by linarith), if_neg (by rintro ⟨-, hc⟩; linarith), if_pos ⟨h₁, h₂⟩]

theorem verdictOf_obesity_low {b : ℚ} (h₁ : 24.9 ≤ b) (h₂ : b < 25) :
    verdictOf b = "Obesity" := by
  unfold verdictOf
  rw [if_neg (by linarith), if_neg (by rintro ⟨-, hc⟩; linarith),
    if_neg (by rintro ⟨hc, -⟩; linarith)]

theorem verdictOf_obesity_high {b : ℚ} (h : 29.9 ≤ b) : verdictOf b = "Obesity" := by
  unfold verdictOf
  rw [if_neg (by linarith), if_neg (by rintro ⟨-, hc⟩; linarith),
    if_neg (by rintro ⟨-, hc⟩; linarith)]

theorem bmiOf_concrete : bmiOf 1.75 70.2 = 22.92 := by
  unfold bmiOf
  rw [round2_eq_div (70.2 / (1.75:ℚ) ^ 2) 2292 (by norm_num) (by norm_num)]
  norm_num

/-! Claim theorems -/

/-- C1: for every height > 0 and weight > 0, the derived bmi is
weight / (height * height) rounded to 2 decimal places (a multiple of 1/100
within 1/200 of the exact quotient, with a standard tie-breaking choice), and
in particular weight 70.2 with height 1.75 yields bmi 22.92. -/
theorem C1_bmi_rounding (h w : ℚ) (_hh : 0 < h) (_hw : 0 < w) :
    (∃ n : ℤ, bmiOf h w = (n : ℚ) / 100) ∧
    |w / (h * h) - bmiOf h w| ≤ 1 / 200 ∧
    bmiOf 1.75 70.2 = 22.92 := by
  refine ⟨⟨round (w / h ^ 2 * 100), rfl⟩, ?_, bmiOf_concrete⟩
  have hsq : w / (h * h) = w / h ^ 2 := by ring
  have hb := abs_sub_round (w / h ^ 2 * 100)
  rw [hsq]
  unfold bmiOf round2
  rw [abs_le] at hb ⊢
  constructor <;> [linarith [hb.1]; linarith [hb.2]]

/-- C1 witness: the concrete instance weight 70.2, height 1.75. -/
theorem C1_bmi_rounding_witness : bmiOf 1.75 70.2 = 22.92 :=
  (C1_bmi_rounding 1.75 70.2 (by norm_num) (by norm_num)).2.2

/-- C2: a record's verdict is determined from its bmi by the first-match
thresholds of the source if/elif chain; the gap [24.9, 25) and everything at
or above 29.9 yield Obesity. -/
theorem C2_verdict_thresholds (p : Patient) :
    (p.bmi < 18.5 → p.verdict = "Underweight") ∧
    (18.5 ≤ p.bmi ∧ p.bmi < 24.9 → p.verdict = "Normal weight") ∧
    (25 ≤ p.bmi ∧ p.bmi < 29.9 → p.verdict = "Overweight") ∧
    (24.9 ≤ p.bmi ∧ p.bmi < 25 → p.verdict = "Obesity") ∧
    (29.9 ≤ p.bmi → p.verdict = "Obesity") := by
  unfold Patient.verdict
  exact ⟨fun h => verdictOf_underweight h,
    fun h => verdictOf_normal h.1 h.2,
    fun h => verdictOf_overweight h.1 h.2,
    fun h => verdictOf_obesity_low h.1 h.2,
    fun h => verdictOf_obesity_high h⟩

/-- C2 witness: a patient of height 1 and weight 24.93 has bmi 24.93, inside
the [24.9, 25) gap, and verdict Obesity. -/
theorem C2_verdict_thresholds_witness :
    Patient.verdict ⟨"P1", "A", "C", 30, "Male", 1, 24.93⟩ = "Obesity" := by
  have hb : Patient.bmi ⟨"P1", "A", "C", 30, "Male", 1, 24.93⟩ = 24.93 := by
    show round2 ((24.93:ℚ) / 1 ^ 2) = 24.93
    rw [round2_eq_div ((24.93:ℚ) / 1 ^ 2) 2493 (by norm_num) (by norm_num)]
    norm_num
  exact (C2_verdict_thresholds ⟨"P1", "A", "C", 30, "Male", 1, 24.93⟩).2.2.2.1
    ⟨by rw [hb]; norm_num, by rw [hb]; norm_num⟩

/-- C6: gender normalization capitalizes (first letter upper, rest lower), is
idempotent, sends every case variant of male to Male (and fixes the canonical
values), and a gender whose normalized form is not among Male/Female/Others is
rejected with InvalidField (shown here on a raw record whose earlier-validated
age field is in range, so the gender check is the one that fires). -/
theorem C6_gender_normalization (s : String) (r : RawPatient) :
    normalize_gender (normalize_gender s) = normalize_gender s ∧
    normalize_gender ("male") = "Male" ∧
    normalize_gender ("MALE") = "Male" ∧
    normalize_gender ("Male") = "Male" ∧
    normalize_gender ("Female") = "Female" ∧
    normalize_gender ("Others") = "Others" ∧
    (0 < r.age → r.age < 110 → normalize_gender r.gender ∉ genders →
      validatePatient r = .error (.invalidField ("gender"))) := by
  refine ⟨normalize_gender_idem s, by decide, by decide, by decide, by decide, by decide,
    fun ha₁ ha₂ hg => ?_⟩
  unfold validatePatient
  rw [if_neg (not_not_intro ⟨ha₁, ha₂⟩), if_pos hg]

/-- C6 witness: the rejection branch at a concrete raw record with an
unrecognized gender, plus idempotence at a concrete string. -/
theorem C6_gender_normalization_witness :
    validatePatient ⟨"P1", "N", "C", 30, "dragon", 2, 70⟩ =
      .error (.invalidField ("gender")) :=
  (C6_gender_normalization ("") ⟨"P1", "N", "C", 30, "dragon", 2, 70⟩).2.2.2.2.2.2
    (by decide) (by decide) (by decide)

/-- C4 counterexample: the source attaches no non-emptiness constraint to
`name` or `city` (src/main.py lines 16-17 declare plain required `str` fields),
so constructing a full record with empty name and city succeeds instead of
failing with InvalidField. -/
theorem C4_counterexample :
    validatePatient ⟨"P1", "", "", 30, "male", 2, 70⟩ =
      .ok ⟨"P1", "", "", 30, "Male", 2, 70⟩ := by decide

/-- C4 amended: `name` and `city` are required but unconstrained — full-record
validation succeeds exactly when age, gender, height and weight satisfy their
constraints, irrespective of the name and city strings (empty ones included). -/
theorem C4_required_strings (r : RawPatient) :
    (validatePatient r).isOk = true ↔
      (0 < r.age ∧ r.age < 110 ∧ normalize_gender r.gender ∈ genders ∧
        0 < r.height ∧ 0 < r.weight) := by
  unfold validatePatient
  split_ifs with h₁ h₂ h₃ h₄ <;>
    simp_all [Except.isOk, Except.toBool]

/-- C5 counterexample: `PatientUpdate.age` is declared `Field(default=None,
gt=0)` with no upper bound (src/main.py line 52), so an update whose age is
150 passes update validation instead of failing with InvalidField. -/
theorem C5_counterexample :
    validatePatientUpdate ⟨none, none, some 150, none, none, none⟩ =
      .ok ⟨none, none, some 150, none, none, none⟩ := by decide

/-- C5 amended: a present update field is validated like the full record's
field except that age lacks the upper bound — update validation succeeds
exactly when every present field meets gt=0 (age, height, weight) or the
gender Literal; an age of 150 therefore passes update validation and is
rejected (with InvalidField naming age) only by the full-record re-validation
the merge performs. -/
theorem C5_update_validation (r : RawUpdate) :
    ((validatePatientUpdate r).isOk = true ↔
      ((∀ a ∈ r.age, 0 < a) ∧ (∀ g ∈ r.gender, normalize_gender g ∈ genders) ∧
        (∀ h ∈ r.height, 0 < h) ∧ (∀ w ∈ r.weight, 0 < w))) ∧
    (∀ (e : StoredRecord) (pid : String),
      validatePatient (mergeRaw e ⟨none, none, some 150, none, none, none⟩ pid) =
        .error (.invalidField ("age"))) := by
  constructor
  · unfold validatePatientUpdate
    split_ifs with h₁ h₂ h₃ h₄ <;>
      simp_all [Except.isOk, Except.toBool]
  · intro e pid
    unfold validatePatient
    rw [if_pos]
    simp [mergeRaw]

/-! Dictionary lemmas -/

theorem dictGet_dictSet_ne (k q : String) (v : StoredRecord) (s : Collection)
    (h : q ≠ k) : dictGet q (dictSet k v s) = dictGet q s := by
  induction s with
  | nil => simp only [dictSet, dictGet, if_neg (Ne.symm h)]
  | cons kv rest ih =>
    obtain ⟨k₁, v₁⟩ := kv
    by_cases hk : k₁ = k
    · subst hk
      simp only [dictSet, if_pos rfl, dictGet, if_neg (Ne.symm h)]
    · simp only [dictSet, if_neg hk, dictGet]
      by_cases hq : k₁ = q
      · rw [if_pos hq, if_pos hq]
      · rw [if_neg hq, if_neg hq, ih]

theorem dictGet_dictErase_ne (k q : String) (s : Collection) (h : q ≠ k) :
    dictGet q (dictErase k s) = dictGet q s := by
  induction s with
  | nil => rfl
  | cons kv rest ih =>
    obtain ⟨k₁, v₁⟩ := kv
    by_cases hk : k₁ = k
    · subst hk
      simp only [dictErase, if_pos rfl, dictGet, if_neg (Ne.symm h)]
      exact ih
    · simp only [dictErase, if_neg hk, dictGet]
      by_cases hq : k₁ = q
      · rw [if_pos hq, if_pos hq]
      · rw [if_neg hq, if_neg hq, ih]

theorem dictGet_dictErase_self (k : String) (s : Collection) :
    dictGet k (dictErase k s) = none := by
  induction s with
  | nil => rfl
  | cons kv rest ih =>
    obtain ⟨k₁, v₁⟩ := kv
    by_cases hk : k₁ = k
    · simp only [dictErase, if_pos hk]
      exact ih
    · simp only [dictErase, if_neg hk, dictGet, if_neg hk]
      exact ih

theorem dictSet_append (k : String) (v : StoredRecord) (s : Collection)
    (h : dictGet k s = none) : dictSet k v s = s ++ [(k, v)] := by
  induction s with
  | nil => rfl
  | cons kv rest ih =>
    obtain ⟨k₁, v₁⟩ := kv
    simp only [dictGet] at h
    by_cases hk : k₁ = k
    · rw [if_pos hk] at h
      exact absurd h (by simp)
    · rw [if_neg hk] at h
      simp only [dictSet, if_neg hk, List.cons_append]
      rw [ih h]

theorem dictSet_self (k : String) (v : StoredRecord) (s : Collection)
    (h : dictGet k s = some v) : dictSet k v s = s := by
  induction s with
  | nil => simp [dictGet] at h
  | cons kv rest ih =>
    obtain ⟨k₁, v₁⟩ := kv
    simp only [dictGet] at h
    by_cases hk : k₁ = k
    · rw [if_pos hk] at h
      injection h with h
      subst hk
      subst h
      simp [dictSet]
    · rw [if_neg hk] at h
      simp only [dictSet, if_neg hk]
      rw [ih h]

/-- The store returned by `update_patient` is either the input store (failure
paths) or a single-key overwrite of the merged, re-validated record. -/
theorem update_patient_snd (store : Collection) (pid : String) (u : PatientUpdate) :
    (update_patient store pid u).2 = store ∨
    ∃ pt : Patient, (update_patient store pid u).2 = dictSet pid pt.dump store := by
  unfold update_patient
  cases update_result store pid u with
  | error err => exact .inl rfl
  | ok pt => exact .inr ⟨pt, rfl⟩

/-! Well-formedness of stored data -/

/-- A stored record that validates as a full `Patient` and carries bmi and
verdict consistent with its height and weight (spec §3 invariant plus the
constraints re-checked by `Patient(**pdata)`). -/
def ValidStored (e : StoredRecord) : Prop :=
  0 < e.age ∧ e.age < 110 ∧ e.gender ∈ genders ∧ 0 < e.height ∧ 0 < e.weight ∧
  e.bmi = bmiOf e.height e.weight ∧ e.verdict = verdictOf e.bmi

/-- A `PatientUpdate` whose present fields also satisfy the full record's
constraints (in particular the age upper bound the update model itself does
not enforce), so that the merge re-validation succeeds. -/
def ValidUpdateFields (u : PatientUpdate) : Prop :=
  (∀ a ∈ u.age, 0 < a ∧ a < 110) ∧ (∀ g ∈ u.gender, g ∈ genders) ∧
  (∀ h ∈ u.height, 0 < h) ∧ (∀ w ∈ u.weight, 0 < w)

theorem normalize_gender_canonical {g : String} (h : g ∈ genders) :
    normalize_gender g = g := by
  simp only [genders, List.mem_cons, List.mem_singleton, List.not_mem_nil, or_false] at h
  rcases h with rfl | rfl | rfl <;> decide

/-- C7: create on a duplicate id fails with DuplicateID, update and delete on
an unknown id fail with RecordNotFound, and in each failure the persisted
collection is returned unchanged (no save happens). -/
theorem C7_failures_leave_store (store : Collection) (pid : String) (p : Patient)
    (u : PatientUpdate) :
    ((dictGet p.id store).isSome = true →
      create_patient store p = (.error .duplicateID, store)) ∧
    (dictGet pid store = none →
      update_patient store pid u = (.error .recordNotFound, store)) ∧
    (dictGet pid store = none →
      delete_patient store pid = (.error .recordNotFound, store)) := by
  refine ⟨fun h => ?_, fun h => ?_, fun h => ?_⟩
  · unfold create_patient
    rw [if_pos h]
  · unfold update_patient
    rw [update_result_none u h]
  · unfold delete_patient
    rw [if_pos (by simp [h])]

/-- C7 witness: a concrete store holding id P1; creating P1 again, and
updating or deleting the absent id P9, each fail and leave the store as is. -/
theorem C7_failures_leave_store_witness :
    create_patient [("P1", ⟨"A", "X", 30, "Male", 2, 70, 18, "U"⟩)]
        ⟨"P1", "B", "Y", 40, "Male", 2, 80⟩ =
      (.error .duplicateID, [("P1", ⟨"A", "X", 30, "Male", 2, 70, 18, "U"⟩)]) ∧
    update_patient [("P1", ⟨"A", "X", 30, "Male", 2, 70, 18, "U"⟩)] "P9"
        ⟨none, none, none, none, none, none⟩ =
      (.error .recordNotFound, [("P1", ⟨"A", "X", 30, "Male", 2, 70, 18, "U"⟩)]) ∧
    delete_patient [("P1", ⟨"A", "X", 30, "Male", 2, 70, 18, "U"⟩)] "P9" =
      (.error .recordNotFound, [("P1", ⟨"A", "X", 30, "Male", 2, 70, 18, "U"⟩)]) := by
  refine ⟨?_, ?_, ?_⟩
  · exact (C7_failures_leave_store [("P1", ⟨"A", "X", 30, "Male", 2, 70, 18, "U"⟩)] "P1"
      ⟨"P1", "B", "Y", 40, "Male", 2, 80⟩ ⟨none, none, none, none, none, none⟩).1 (by decide)
  · exact (C7_failures_leave_store [("P1", ⟨"A", "X", 30, "Male", 2, 70, 18, "U"⟩)] "P9"
      ⟨"P1", "B", "Y", 40, "Male", 2, 80⟩ ⟨none, none, none, none, none, none⟩).2.1 (by decide)
  · exact (C7_failures_leave_store [("P1", ⟨"A", "X", 30, "Male", 2, 70, 18, "U"⟩)] "P9"
      ⟨"P1", "B", "Y", 40, "Male", 2, 80⟩ ⟨none, none, none, none, none, none⟩).2.2 (by decide)

/-- C10: a mutating operation touches at most the entry of the target id —
every other id reads back unchanged, whether the operation succeeded or
failed; a successful create appends exactly one entry under the new id; and
after delete the target id is gone. -/
theorem C10_frame (store : Collection) (p : Patient) (pid q : String)
    (u : PatientUpdate) :
    (q ≠ p.id → dictGet q (create_patient store p).2 = dictGet q store) ∧
    (q ≠ pid → dictGet q (update_patient store pid u).2 = dictGet q store) ∧
    (q ≠ pid → dictGet q (delete_patient store pid).2 = dictGet q store) ∧
    (dictGet p.id store = none →
      (create_patient store p).2 = store ++ [(p.id, p.dump)]) ∧
    dictGet pid (delete_patient store pid).2 = none := by
  refine ⟨fun h => ?_, fun h => ?_, fun h => ?_, fun h => ?_, ?_⟩
  · unfold create_patient
    split_ifs
    · rfl
    · exact dictGet_dictSet_ne p.id q p.dump store h
  · rcases update_patient_snd store pid u with h₂ | ⟨pt, h₂⟩
    · rw [h₂]
    · rw [h₂]
      exact dictGet_dictSet_ne pid q pt.dump store h
  · unfold delete_patient
    split_ifs
    · rfl
    · exact dictGet_dictErase_ne pid q store h
  · unfold create_patient
    rw [if_neg (by simp [h])]
    exact dictSet_append p.id p.dump store h
  · unfold delete_patient
    split_ifs with h
    · simpa using h
    · exact dictGet_dictErase_self pid store

/-- C10 witness: on a two-entry store, creating P3, updating P1 and deleting
P1 all leave the record under P2 untouched, create appends the new entry, and
delete removes P1. -/
theorem C10_frame_witness :
    dictGet ("P2") (create_patient
        [("P1", ⟨"A", "X", 30, "Male", 2, 70, 18, "U"⟩),
         ("P2", ⟨"B", "Y", 40, "Male", 2, 80, 20, "N"⟩)]
        ⟨"P3", "C", "Z", 50, "Male", 2, 90⟩).2 =
      some ⟨"B", "Y", 40, "Male", 2, 80, 20, "N"⟩ ∧
    dictGet ("P2") (update_patient
        [("P1", ⟨"A", "X", 30, "Male", 2, 70, 18, "U"⟩),
         ("P2", ⟨"B", "Y", 40, "Male", 2, 80, 20, "N"⟩)] "P1"
        ⟨some ("AA"), none, none, none, none, none⟩).2 =
      some ⟨"B", "Y", 40, "Male", 2, 80, 20, "N"⟩ ∧
    dictGet ("P1") (delete_patient
        [("P1", ⟨"A", "X", 30, "Male", 2, 70, 18, "U"⟩),
         ("P2", ⟨"B", "Y", 40, "Male", 2, 80, 20, "N"⟩)] "P1").2 = none := by
  refine ⟨?_, ?_, ?_⟩
  · rw [(C10_frame
      [("P1", ⟨"A", "X", 30, "Male", 2, 70, 18, "U"⟩),
       ("P2", ⟨"B", "Y", 40, "Male", 2, 80, 20, "N"⟩)]
      ⟨"P3", "C", "Z", 50, "Male", 2, 90⟩ "P1" "P2"
      ⟨some ("AA"), none, none, none, none, none⟩).1 (by decide)]
    decide
  · rw [(C10_frame
      [("P1", ⟨"A", "X", 30, "Male", 2, 70, 18, "U"⟩),
       ("P2", ⟨"B", "Y", 40, "Male", 2, 80, 20, "N"⟩)]
      ⟨"P3", "C", "Z", 50, "Male", 2, 90⟩ "P1" "P2"
      ⟨some ("AA"), none, none, none, none, none⟩).2.1 (by decide)]
    decide
  · exact (C10_frame
      [("P1", ⟨"A", "X", 30, "Male", 2, 70, 18, "U"⟩),
       ("P2", ⟨"B", "Y", 40, "Male", 2, 80, 20, "N"⟩)]
      ⟨"P3", "C", "Z", 50, "Male", 2, 90⟩ "P1" "P2"
      ⟨some ("AA"), none, none, none, none, none⟩).2.2.2.2

theorem validatePatient_ok (r : RawPatient) (ha₁ : 0 < r.age) (ha₂ : r.age < 110)
    (hg : normalize_gender r.gender ∈ genders) (hh : 0 < r.height) (hw : 0 < r.weight) :
    validatePatient r =
      .ok ⟨r.id, r.name, r.city, r.age, normalize_gender r.gender, r.height, r.weight⟩ := by
  unfold validatePatient
  rw [if_neg (not_not_intro ⟨ha₁, ha₂⟩), if_neg (not_not_intro hg),
    if_neg (not_not_intro hh), if_neg (not_not_intro hw)]

/-- C3: updating an existing well-formed record with a partial update whose
present fields meet the full-record constraints succeeds and stores a merged
record: each stored field is the update's value when supplied and the existing
value otherwise, and bmi/verdict are recomputed from the merged height and
weight.  An update supplying no fields stores back a record equal to the
original (collection unchanged), and an update not touching height or weight
leaves bmi and verdict unchanged. -/
theorem C3_update_merge (store : Collection) (pid : String) (u : PatientUpdate)
    (e : StoredRecord) (hget : dictGet pid store = some e)
    (he : ValidStored e) (hu : ValidUpdateFields u) :
    ∃ m : StoredRecord,
      update_patient store pid u = (.ok (), dictSet pid m store) ∧
      m.name = u.name.getD e.name ∧
      m.city = u.city.getD e.city ∧
      m.age = u.age.getD e.age ∧
      m.gender = u.gender.getD e.gender ∧
      m.height = u.height.getD e.height ∧
      m.weight = u.weight.getD e.weight ∧
      m.bmi = bmiOf (u.height.getD e.height) (u.weight.getD e.weight) ∧
      m.verdict = verdictOf m.bmi ∧
      (u = ⟨none, none, none, none, none, none⟩ →
        m = e ∧ update_patient store pid u = (.ok (), store)) ∧
      (u.height = none → u.weight = none → m.bmi = e.bmi ∧ m.verdict = e.verdict) := by
  obtain ⟨ha₁, ha₂, hg, hh, hw, hbmi, hverd⟩ := he
  obtain ⟨hua, hug, huh, huw⟩ := hu
  have hAge : 0 < u.age.getD e.age ∧ u.age.getD e.age < 110 := by
    cases hA : u.age with
    | none => simpa using ⟨ha₁, ha₂⟩
    | some a => simpa using hua a (by simp [hA])
  have hGen : u.gender.getD e.gender ∈ genders := by
    cases hG : u.gender with
    | none => simpa using hg
    | some g => simpa using hug g (by simp [hG])
  have hHt : 0 < u.height.getD e.height := by
    cases hH : u.height with
    | none => simpa using hh
    | some x => simpa using huh x (by simp [hH])
  have hWt : 0 < u.weight.getD e.weight := by
    cases hW : u.weight with
    | none => simpa using hw
    | some x => simpa using huw x (by simp [hW])
  have hval : validatePatient (mergeRaw e u pid) =
      .ok ⟨pid, u.name.getD e.name, u.city.getD e.city, u.age.getD e.age,
        normalize_gender (u.gender.getD e.gender), u.height.getD e.height,
        u.weight.getD e.weight⟩ :=
    validatePatient_ok (mergeRaw e u pid) hAge.1 hAge.2
      (by show normalize_gender (u.gender.getD e.gender) ∈ genders
          rw [normalize_gender_canonical hGen]
          exact hGen) hHt hWt
  have heq : update_patient store pid u =
      (.ok (), dictSet pid
        (Patient.dump ⟨pid, u.name.getD e.name, u.city.getD e.city, u.age.getD e.age,
          normalize_gender (u.gender.getD e.gender), u.height.getD e.height,
          u.weight.getD e.weight⟩) store) := by
    unfold update_patient
    rw [update_result_some u hget, hval]
  refine ⟨_, heq, rfl, rfl, rfl, normalize_gender_canonical hGen, rfl, rfl, rfl, rfl,
    fun hnone => ?_, fun hH hW => ?_⟩
  · subst hnone
    have hm : Patient.dump ⟨pid, (none : Option String).getD e.name,
        (none : Option String).getD e.city, (none : Option ℤ).getD e.age,
        normalize_gender ((none : Option String).getD e.gender),
        (none : Option ℚ).getD e.height, (none : Option ℚ).getD e.weight⟩ = e := by
      show (⟨e.name, e.city, e.age, normalize_gender e.gender, e.height, e.weight,
        bmiOf e.height e.weight, verdictOf (bmiOf e.height e.weight)⟩ : StoredRecord) = e
      rw [normalize_gender_canonical hg, ← hbmi, ← hverd]
    refine ⟨hm, ?_⟩
    rw [heq, hm, dictSet_self pid e store hget]
  · rw [hH, hW]
    constructor
    · show bmiOf e.height e.weight = e.bmi
      exact hbmi.symm
    · show verdictOf (bmiOf e.height e.weight) = e.verdict
      rw [← hbmi, hverd]

/-- C3 witness: updating only the name of a stored record (height 2, weight
72, bmi 18, verdict Underweight) stores the new name and leaves bmi and
verdict unchanged. -/
theorem C3_update_merge_witness :
    ∃ m : StoredRecord,
      update_patient [("P1", ⟨"John", "NY", 30, "Male", 2, 72, 18, "Underweight"⟩)]
          "P1" ⟨some ("Johnny"), none, none, none, none, none⟩ =
        (.ok (), dictSet ("P1") m
          [("P1", ⟨"John", "NY", 30, "Male", 2, 72, 18, "Underweight"⟩)]) ∧
      m.name = "Johnny" ∧ m.bmi = 18 ∧ m.verdict = "Underweight" := by
  have hbmi : bmiOf 2 72 = 18 := by
    unfold bmiOf
    rw [round2_eq_div ((72:ℚ) / 2 ^ 2) 1800 (by norm_num) (by norm_num)]
    norm_num
  obtain ⟨m, hm, hname, -, -, -, -, -, -, -, -, hlast⟩ :=
    C3_update_merge [("P1", ⟨"John", "NY", 30, "Male", 2, 72, 18, "Underweight"⟩)]
      "P1" ⟨some ("Johnny"), none, none, none, none, none⟩
      ⟨"John", "NY", 30, "Male", 2, 72, 18, "Underweight"⟩
      (by decide)
      ⟨by decide, by decide, by decide, by decide, by decide, hbmi.symm,
        (verdictOf_underweight (by norm_num)).symm⟩
      ⟨by simp, by simp, by simp, by simp⟩
  obtain ⟨hb, hv⟩ := hlast rfl rfl
  exact ⟨m, hm, hname, hb, hv⟩

/-! Sort engine lemmas -/

theorem sortLe_trans (sb ord : String) (a b c : StoredRecord)
    (h₁ : sortLe sb ord a b = true) (h₂ : sortLe sb ord b c = true) :
    sortLe sb ord a c = true := by
  unfold sortLe at h₁ h₂ ⊢
  split_ifs at h₁ h₂ ⊢ <;> simp only [decide_eq_true_eq] at h₁ h₂ ⊢
  · exact le_trans h₂ h₁
  · exact le_trans h₁ h₂

theorem sortLe_total (sb ord : String) (a b : StoredRecord) :
    (sortLe sb ord a b || sortLe sb ord b a) = true := by
  unfold sortLe
  split_ifs <;> simp only [Bool.or_eq_true, decide_eq_true_eq] <;>
    exact le_total _ _

theorem sortLe_of_key_eq (sb ord : String) (a b : StoredRecord)
    (h : sortKey sb a = sortKey sb b) : sortLe sb ord a b = true := by
  unfold sortLe
  split_ifs <;> simp only [decide_eq_true_eq] <;> rw [h]

/-- A stable sort leaves each equivalence class of the comparison in its
original relative order: filtering the output by any predicate on which the
comparison is constantly true gives the filtered input. -/
theorem mergeSort_filter_stable {α : Type} {le : α → α → Bool}
    (htrans : ∀ a b c, le a b → le b c → le a c)
    (htotal : ∀ a b, le a b || le b a)
    (l : List α) (p : α → Bool)
    (hp : ∀ a b, p a = true → p b = true → le a b = true) :
    (l.mergeSort le).filter p = l.filter p := by
  have hpair : (l.filter p).Pairwise (fun a b => le a b = true) :=
    List.pairwise_of_forall_mem_list fun a ha b hb =>
      hp a b (List.of_mem_filter ha) (List.of_mem_filter hb)
  have h₁ : List.Sublist (l.filter p) (l.mergeSort le) :=
    List.sublist_mergeSort htrans htotal hpair (List.filter_sublist l)
  have h₂ : List.Perm ((l.mergeSort le).filter p) (l.filter p) :=
    (List.mergeSort_perm l le).filter p
  have h₃ : List.Sublist (l.filter p) ((l.mergeSort le).filter p) := by
    have h₄ := h₁.filter p
    rwa [List.filter_eq_self.mpr fun a ha => List.of_mem_filter ha] at h₄
  exact (h₃.eq_of_length h₂.length_eq.symm).symm

theorem materializeAll_ok (s : Collection) (l : List StoredRecord)
    (h : materializeAll s = .ok l) :
    List.Forall₂ (fun kv m => materialize kv.1 kv.2 = .ok m) s l := by
  induction s generalizing l with
  | nil =>
    have h₂ : (Except.ok [] : Except Err (List StoredRecord)) = .ok l := h
    injection h₂ with h₂
    subst h₂
    exact .nil
  | cons kv rest ih =>
    obtain ⟨pid, r⟩ := kv
    unfold materializeAll at h
    cases hm : materialize pid r with
    | error e₂ =>
      rw [hm] at h
      exact Except.noConfusion (h : (Except.error e₂ : Except Err (List StoredRecord)) = .ok l)
    | ok p =>
      rw [hm] at h
      cases hr : materializeAll rest with
      | error e₂ =>
        rw [hr] at h
        exact Except.noConfusion (h : (Except.error e₂ : Except Err (List StoredRecord)) = .ok l)
      | ok ps =>
        rw [hr] at h
        have h₂ : (Except.ok (p :: ps) : Except Err (List StoredRecord)) = .ok l := h
        injection h₂ with h₂
        subst h₂
        exact .cons hm (ih ps hr)

theorem validatePatient_error_shape (r : RawPatient) (err : Err)
    (h : validatePatient r = .error err) : ∃ f, err = Err.invalidField f := by
  unfold validatePatient at h
  split_ifs at h
  all_goals injection h with h
  all_goals exact ⟨_, h.symm⟩

theorem materialize_error_shape (pid : String) (r : StoredRecord) (err : Err)
    (h : materialize pid r = .error err) : ∃ f, err = Err.invalidField f := by
  unfold materialize at h
  cases hv : validatePatient ⟨pid, r.name, r.city, r.age, r.gender, r.height, r.weight⟩ with
  | error e₂ =>
    rw [hv] at h
    have h₂ : (Except.error e₂ : Except Err StoredRecord) = .error err := h
    injection h₂ with h₂
    subst h₂
    exact validatePatient_error_shape _ _ hv

  | ok p =>
    rw [hv] at h
    exact Except.noConfusion (h : (Except.ok p.dump : Except Err StoredRecord) = .error err)

theorem materializeAll_error_shape (s : Collection) (err : Err)
    (h : materializeAll s = .error err) : ∃ f, err = Err.invalidField f := by
  induction s with
  | nil => exact Except.noConfusion (h : (Except.ok [] : Except Err (List StoredRecord)) = .error err)
  | cons kv rest ih =>
    obtain ⟨pid, r⟩ := kv
    unfold materializeAll at h
    cases hm : materialize pid r with
    | error e₂ =>
      rw [hm] at h
      have h₂ : (Except.error e₂ : Except Err (List StoredRecord)) = .error err := h
      injection h₂ with h₂
      subst h₂
      exact materialize_error_shape pid r _ hm
    | ok p =>
      rw [hm] at h
      cases hr : materializeAll rest with
      | error e₂ =>
        rw [hr] at h
        have h₂ : (Except.error e₂ : Except Err (List StoredRecord)) = .error err := h
        injection h₂ with h₂
        subst h₂
        exact ih hr
      | ok ps =>
        rw [hr] at h
        exact Except.noConfusion (h : (Except.ok (p :: ps) : Except Err (List StoredRecord)) = .error err)

/-- C8: whenever the sort endpoint succeeds, its output is a permutation of
the materialized records (taken in collection-iteration order), it is ordered
by the requested key — ascending for asc, descending for desc — and it is
stable in both directions: for every key value, the records carrying that
value appear in the output in exactly their original relative order. -/
theorem C8_sort_ordered_stable (sb ord : String) (store : Collection)
    (out : List StoredRecord) (hrun : sort_patients sb ord store = .ok out) :
    ∃ mats : List StoredRecord,
      List.Forall₂ (fun kv m => materialize kv.1 kv.2 = .ok m) store mats ∧
      List.Perm out mats ∧
      (ord = "asc" → out.Pairwise (fun a b => sortKey sb a ≤ sortKey sb b)) ∧
      (ord = "desc" → out.Pairwise (fun a b => sortKey sb b ≤ sortKey sb a)) ∧
      (∀ v : ℚ, out.filter (fun r => decide (sortKey sb r = v)) =
        mats.filter (fun r => decide (sortKey sb r = v))) := by
  by_cases hsb : sb ∈ ["height", "weight", "bmi"]
  case neg =>
    unfold sort_patients at hrun
    rw [if_pos hsb] at hrun
    exact Except.noConfusion hrun
  by_cases hord : ord ∈ ["asc", "desc"]
  case neg =>
    unfold sort_patients at hrun
    rw [if_neg (not_not_intro hsb), if_pos hord] at hrun
    exact Except.noConfusion hrun
  unfold sort_patients at hrun
  rw [if_neg (not_not_intro hsb), if_neg (not_not_intro hord)] at hrun
  cases hm : materializeAll store with
  | error err =>
    rw [hm] at hrun
    exact Except.noConfusion
      (hrun : (Except.error err : Except Err (List StoredRecord)) = .ok out)
  | ok pats =>
    rw [hm] at hrun
    have h₃ : (Except.ok (pats.mergeSort (sortLe sb ord)) :
        Except Err (List StoredRecord)) = .ok out := hrun
    injection h₃ with h₃
    subst h₃
    refine ⟨pats, materializeAll_ok store pats hm, List.mergeSort_perm pats _,
      fun hord => ?_, fun hord => ?_, fun v => ?_⟩
    · subst hord
      have hs := @List.sorted_mergeSort StoredRecord (sortLe sb ("asc"))
        (fun a b c => sortLe_trans sb ("asc") a b c)
        (fun a b => sortLe_total sb ("asc") a b) pats
      refine List.Pairwise.imp (fun hab => ?_) hs
      unfold sortLe at hab
      rw [if_neg (by decide)] at hab
      exact of_decide_eq_true hab
    · subst hord
      have hs := @List.sorted_mergeSort StoredRecord (sortLe sb ("desc"))
        (fun a b c => sortLe_trans sb ("desc") a b c)
        (fun a b => sortLe_total sb ("desc") a b) pats
      refine List.Pairwise.imp (fun hab => ?_) hs
      unfold sortLe at hab
      rw [if_pos (by decide)] at hab
      exact of_decide_eq_true hab
    · exact mergeSort_filter_stable
        (fun a b c => sortLe_trans sb ord a b c)
        (fun a b => sortLe_total sb ord a b) pats _
        (fun a b ha hb => sortLe_of_key_eq sb ord a b
          (by rw [of_decide_eq_true ha, of_decide_eq_true hb]))

/-- C8 witness: records A(bmi 20), B(bmi 20), C(bmi 18) stored in order
A, B, C sort ascending by bmi to [C, A, B] — A stays before B — and the
sorted output satisfies the permutation, ordering and stability properties. -/
theorem C8_sort_ordered_stable_witness :
    sort_patients ("bmi") ("asc")
        [("P1", ⟨"A", "X", 30, "Male", 1, 20, 20, "Normal weight"⟩),
         ("P2", ⟨"B", "X", 30, "Male", 1, 20, 20, "Normal weight"⟩),
         ("P3", ⟨"C", "X", 30, "Male", 1, 18, 18, "Underweight"⟩)] =
      .ok [⟨"C", "X", 30, "Male", 1, 18, 18, "Underweight"⟩,
           ⟨"A", "X", 30, "Male", 1, 20, 20, "Normal weight"⟩,
           ⟨"B", "X", 30, "Male", 1, 20, 20, "Normal weight"⟩] ∧
    ∃ mats : List StoredRecord,
      List.Forall₂ (fun kv m => materialize kv.1 kv.2 = .ok m)
        [("P1", ⟨"A", "X", 30, "Male", 1, 20, 20, "Normal weight"⟩),
         ("P2", ⟨"B", "X", 30, "Male", 1, 20, 20, "Normal weight"⟩),
         ("P3", ⟨"C", "X", 30, "Male", 1, 18, 18, "Underweight"⟩)] mats ∧
      List.Perm [⟨"C", "X", 30, "Male", 1, 18, 18, "Underweight"⟩,
           ⟨"A", "X", 30, "Male", 1, 20, 20, "Normal weight"⟩,
           ⟨"B", "X", 30, "Male", 1, 20, 20, "Normal weight"⟩] mats ∧
      (("asc" : String) = "asc" →
        List.Pairwise (fun a b => sortKey ("bmi") a ≤ sortKey ("bmi") b)
          [⟨"C", "X", 30, "Male", 1, 18, 18, "Underweight"⟩,
           ⟨"A", "X", 30, "Male", 1, 20, 20, "Normal weight"⟩,
           ⟨"B", "X", 30, "Male", 1, 20, 20, "Normal weight"⟩]) ∧
      (("asc" : String) = "desc" →
        List.Pairwise (fun a b => sortKey ("bmi") b ≤ sortKey ("bmi") a)
          [⟨"C", "X", 30, "Male", 1, 18, 18, "Underweight"⟩,
           ⟨"A", "X", 30, "Male", 1, 20, 20, "Normal weight"⟩,
           ⟨"B", "X", 30, "Male", 1, 20, 20, "Normal weight"⟩]) ∧
      (∀ v : ℚ,
        List.filter (fun r => decide (sortKey ("bmi") r = v))
          [⟨"C", "X", 30, "Male", 1, 18, 18, "Underweight"⟩,
           ⟨"A", "X", 30, "Male", 1, 20, 20, "Normal weight"⟩,
           ⟨"B", "X", 30, "Male", 1, 20, 20, "Normal weight"⟩] =
        List.filter (fun r => decide (sortKey ("bmi") r = v)) mats) := by
  have hb20 : bmiOf 1 20 = 20 := by
    unfold bmiOf
    rw [round2_eq_div ((20:ℚ) / 1 ^ 2) 2000 (by norm_num) (by norm_num)]
    norm_num
  have hb18 : bmiOf 1 18 = 18 := by
    unfold bmiOf
    rw [round2_eq_div ((18:ℚ) / 1 ^ 2) 1800 (by norm_num) (by norm_num)]
    norm_num
  have hmatA : materialize ("P1") ⟨"A", "X", 30, "Male", 1, 20, 20, "Normal weight"⟩ =
      .ok ⟨"A", "X", 30, "Male", 1, 20, 20, "Normal weight"⟩ := by
    show Except.map Patient.dump
      (validatePatient ⟨"P1", "A", "X", 30, "Male", 1, 20⟩) = _
    rw [validatePatient_ok ⟨"P1", "A", "X", 30, "Male", 1, 20⟩
      (by decide) (by decide) (by decide) (by decide) (by decide)]
    show Except.ok (Patient.dump _) = _
    unfold Patient.dump
    rw [show (Patient.bmi ⟨"P1", "A", "X", 30, normalize_gender ("Male"), 1, 20⟩) =
      bmiOf 1 20 from rfl, hb20]
    rw [show (Patient.verdict ⟨"P1", "A", "X", 30, normalize_gender ("Male"), 1, 20⟩) =
      verdictOf (bmiOf 1 20) from rfl, hb20, verdictOf_normal (by norm_num) (by norm_num)]
    rfl
  have hmatB : materialize ("P2") ⟨"B", "X", 30, "Male", 1, 20, 20, "Normal weight"⟩ =
      .ok ⟨"B", "X", 30, "Male", 1, 20, 20, "Normal weight"⟩ := by
    show Except.map Patient.dump
      (validatePatient ⟨"P2", "B", "X", 30, "Male", 1, 20⟩) = _
    rw [validatePatient_ok ⟨"P2", "B", "X", 30, "Male", 1, 20⟩
      (by decide) (by decide) (by decide) (by decide) (by decide)]
    show Except.ok (Patient.dump _) = _
    unfold Patient.dump
    rw [show (Patient.bmi ⟨"P2", "B", "X", 30, normalize_gender ("Male"), 1, 20⟩) =
      bmiOf 1 20 from rfl, hb20]
    rw [show (Patient.verdict ⟨"P2", "B", "X", 30, normalize_gender ("Male"), 1, 20⟩) =
      verdictOf (bmiOf 1 20) from rfl, hb20, verdictOf_normal (by norm_num) (by norm_num)]
    rfl
  have hmatC : materialize ("P3") ⟨"C", "X", 30, "Male", 1, 18, 18, "Underweight"⟩ =
      .ok ⟨"C", "X", 30, "Male", 1, 18, 18, "Underweight"⟩ := by
    show Except.map Patient.dump
      (validatePatient ⟨"P3", "C", "X", 30, "Male", 1, 18⟩) = _
    rw [validatePatient_ok ⟨"P3", "C", "X", 30, "Male", 1, 18⟩
      (by decide) (by decide) (by decide) (by decide) (by decide)]
    show Except.ok (Patient.dump _) = _
    unfold Patient.dump
    rw [show (Patient.bmi ⟨"P3", "C", "X", 30, normalize_gender ("Male"), 1, 18⟩) =
      bmiOf 1 18 from rfl, hb18]
    rw [show (Patient.verdict ⟨"P3", "C", "X", 30, normalize_gender ("Male"), 1, 18⟩) =
      verdictOf (bmiOf 1 18) from rfl, hb18, verdictOf_underweight (by norm_num)]
    rfl
  have hmats : materializeAll
      [("P1", ⟨"A", "X", 30, "Male", 1, 20, 20, "Normal weight"⟩),
       ("P2", ⟨"B", "X", 30, "Male", 1, 20, 20, "Normal weight"⟩),
       ("P3", ⟨"C", "X", 30, "Male", 1, 18, 18, "Underweight"⟩)] =
      .ok [⟨"A", "X", 30, "Male", 1, 20, 20, "Normal weight"⟩,
           ⟨"B", "X", 30, "Male", 1, 20, 20, "Normal weight"⟩,
           ⟨"C", "X", 30, "Male", 1, 18, 18, "Underweight"⟩] := by
    simp only [materializeAll, hmatA, hmatB, hmatC]
  have hsorted : List.mergeSort
      [(⟨"A", "X", 30, "Male", 1, 20, 20, "Normal weight"⟩ : StoredRecord),
       ⟨"B", "X", 30, "Male", 1, 20, 20, "Normal weight"⟩,
       ⟨"C", "X", 30, "Male", 1, 18, 18, "Underweight"⟩] (sortLe ("bmi") ("asc")) =
      [⟨"C", "X", 30, "Male", 1, 18, 18, "Underweight"⟩,
       ⟨"A", "X", 30, "Male", 1, 20, 20, "Normal weight"⟩,
       ⟨"B", "X", 30, "Male", 1, 20, 20, "Normal weight"⟩] := by
    have hne₁ : (("asc" : String) = "desc") = False := eq_false (by decide)
    have hne₂ : (("bmi" : String) = "height") = False := eq_false (by decide)
    norm_num [List.mergeSort, List.merge, sortLe, sortKey, hne₁, hne₂]
  have hrun : sort_patients ("bmi") ("asc")
      [("P1", ⟨"A", "X", 30, "Male", 1, 20, 20, "Normal weight"⟩),
       ("P2", ⟨"B", "X", 30, "Male", 1, 20, 20, "Normal weight"⟩),
       ("P3", ⟨"C", "X", 30, "Male", 1, 18, 18, "Underweight"⟩)] =
      .ok [⟨"C", "X", 30, "Male", 1, 18, 18, "Underweight"⟩,
           ⟨"A", "X", 30, "Male", 1, 20, 20, "Normal weight"⟩,
           ⟨"B", "X", 30, "Male", 1, 20, 20, "Normal weight"⟩] := by
    unfold sort_patients
    rw [if_neg (by decide), if_neg (by decide), hmats]
    exact congrArg Except.ok hsorted
  exact ⟨hrun, C8_sort_ordered_stable ("bmi") ("asc") _ _ hrun⟩

/-- C9: the sort endpoint rejects any sort key outside height/weight/bmi with
InvalidSortField (checked first), rejects any order outside asc/desc with
InvalidSortOrder, and gets past parameter validation — neither of those two
errors — exactly when both parameters are accepted. -/
theorem C9_sort_param_validation (sb ord : String) (store : Collection) :
    (¬ sb ∈ ["height", "weight", "bmi"] →
      sort_patients sb ord store = .error .invalidSortField) ∧
    (sb ∈ ["height", "weight", "bmi"] → ¬ ord ∈ ["asc", "desc"] →
      sort_patients sb ord store = .error .invalidSortOrder) ∧
    ((sort_patients sb ord store ≠ .error .invalidSortField ∧
      sort_patients sb ord store ≠ .error .invalidSortOrder) ↔
      (sb ∈ ["height", "weight", "bmi"] ∧ ord ∈ ["asc", "desc"])) := by
  have hA : ∀ _ : ¬ sb ∈ ["height", "weight", "bmi"],
      sort_patients sb ord store = .error .invalidSortField := fun hsb => by
    unfold sort_patients
    rw [if_pos hsb]
  have hB : ∀ (_ : sb ∈ ["height", "weight", "bmi"]) (_ : ¬ ord ∈ ["asc", "desc"]),
      sort_patients sb ord store = .error .invalidSortOrder := fun hsb hord => by
    unfold sort_patients
    rw [if_neg (not_not_intro hsb), if_pos hord]
  have hC : ∀ (_ : sb ∈ ["height", "weight", "bmi"]) (_ : ord ∈ ["asc", "desc"]),
      sort_patients sb ord store ≠ .error .invalidSortField ∧
      sort_patients sb ord store ≠ .error .invalidSortOrder := fun hsb hord => by
    unfold sort_patients
    rw [if_neg (not_not_intro hsb), if_neg (not_not_intro hord)]
    cases hm : materializeAll store with
    | error err =>
      obtain ⟨f, rfl⟩ := materializeAll_error_shape store err hm
      constructor
      · intro hc
        injection (hc : (Except.error (Err.invalidField f) :
          Except Err (List StoredRecord)) = .error .invalidSortField) with hc
        exact Err.noConfusion hc
      · intro hc
        injection (hc : (Except.error (Err.invalidField f) :
          Except Err (List StoredRecord)) = .error .invalidSortOrder) with hc
        exact Err.noConfusion hc
    | ok pats =>
      constructor
      · intro hc
        exact Except.noConfusion (hc : (Except.ok (pats.mergeSort (sortLe sb ord)) :
          Except Err (List StoredRecord)) = .error .invalidSortField)
      · intro hc
        exact Except.noConfusion (hc : (Except.ok (pats.mergeSort (sortLe sb ord)) :
          Except Err (List StoredRecord)) = .error .invalidSortOrder)
  refine ⟨hA, hB, ⟨fun hboth => ?_, fun hok => hC hok.1 hok.2⟩⟩
  by_cases hsb : sb ∈ ["height", "weight", "bmi"]
  · by_cases hord : ord ∈ ["asc", "desc"]
    · exact ⟨hsb, hord⟩
    · exact absurd (hB hsb hord) hboth.2
  · exact absurd (hA hsb) hboth.1

/-- C9 witness: sorting by age fails with InvalidSortField, and a valid key
with order "up" fails with InvalidSortOrder. -/
theorem C9_sort_param_validation_witness :
    sort_patients ("age") ("asc") [] = .error .invalidSortField ∧
    sort_patients ("bmi") ("up") [] = .error .invalidSortOrder :=
  ⟨(C9_sort_param_validation ("age") ("asc") []).1 (by decide),
   (C9_sort_param_validation ("bmi") ("up") []).2.1 (by decide) (by decide)⟩

end PMS
